import Mathlib

/-!
Verification of the pyrealtime core (layer.py, input_layers.py, decode_layer.py)
against its natural-language specification.

The Python source is shallowly embedded: each stateful method becomes an
explicit state-passing Lean function, queues become lists (head = front of the
FIFO), Python `None` and the `LayerSignal.STOP` enum member become constructors
of an explicit `Data` type, and raised exceptions become `Except` / explicit
error constructors.  Real-time aspects (`time.sleep`, FPS bookkeeping in
`tick()`/`reset()`) have no data effect on any claim and are recorded only as
comments at the corresponding spot.
-/

set_option autoImplicit false

namespace PyRealtime

variable {α : Type}

/-- A value flowing through the dataflow core, as the processing loop
distinguishes them: Python `None`, the `LayerSignal.STOP` enum member, or an
ordinary payload item. -/
inductive Data (α : Type) where
  | none
  | stop
  | item (a : α)
deriving DecidableEq, Repr

/-- Embedding of `isinstance(data, LayerSignal)` (layer.py line 126/142):
`LayerSignal` has `STOP` as its only member, so a value is a `LayerSignal`
exactly when it is `STOP`. -/
def Data.isLayerSignal : Data α → Bool
  | .stop => true
  | _ => false

/-- Embedding of `x == LayerSignal.STOP` for an arbitrary value `x`: an enum
comparison that is true exactly on the `STOP` member (any non-`LayerSignal`
value compares unequal). -/
def Data.isStopValue : Data α → Bool
  | .stop => true
  | _ => false

/-- The observable per-layer state touched by `BaseLayer.process_loop`
(layer.py lines 123-146).

`emitted` records the arguments of the in-loop `self.handle_output(...)` calls
(line 140), i.e. the items delivered on the layer's default output port by loop
iterations; the terminal `handle_output(LayerSignal.STOP)` of line 145 is kept
separate (see `runOutput`).  `postInits` records the arguments of the
`self.post_init(data)` calls (line 135) and `transformCalls` the arguments of
the `self.transform(data)` calls (line 137), in order. -/
structure LoopState (α : Type) where
  stopEvent : Bool
  isFirst : Bool
  counter : Nat
  emitted : List (Data α)
  postInits : List α
  transformCalls : List α
deriving DecidableEq, Repr

/-- State of a freshly constructed layer (`BaseLayer.__init__`, layer.py lines
65-80): `counter = 0`, `is_first = True`, stop event not set, nothing emitted. -/
def initLoopState : LoopState α :=
  { stopEvent := false, isFirst := true, counter := 0,
    emitted := [], postInits := [], transformCalls := [] }

/-- One iteration of the body of `BaseLayer.process_loop` (layer.py lines
125-144), given the value `d` that `self.get_input()` returned this iteration.
The `transform` argument is the user transform (`self.transform`); it receives
a payload item and returns an item, `None`, or `LayerSignal.STOP`.

Line-by-line correspondence:
* lines 126-128: a `LayerSignal.STOP` input sets the stop event and skips the
  rest of the iteration;
* lines 130-131: a `None` input skips the rest of the iteration;
* line 133 (`self.get_signal()`): drains the signal queue; no modelled state;
* lines 134-136: on the first surviving item, call `post_init` and clear
  `is_first`;
* lines 137-139: compute the transform; a `None` result skips the rest;
* line 140: deliver the transform result downstream (`handle_output`);
* line 141 (`self.tick()`): FPS bookkeeping only, no modelled state;
* lines 142-143: `if isinstance(data, LayerSignal) and data_transformed ==
  LayerSignal.STOP: self.stop()` — translated literally; note it tests the
  *input* `data` for being a `LayerSignal`, which is impossible at this point
  (such an input was consumed by lines 126-128);
* line 144: `self.counter += 1`. -/
def stepLoop (transform : α → Data α) (s : LoopState α) (d : Data α) : LoopState α :=
  if d.isLayerSignal && d.isStopValue then
    { s with stopEvent := true }
  else
    match d with
    | .none => s
    | .stop => { s with stopEvent := true }
    | .item a =>
      let s1 :=
        if s.isFirst then
          { s with postInits := s.postInits ++ [a], isFirst := false }
        else s
      let s1 := { s1 with transformCalls := s1.transformCalls ++ [a] }
      match transform a with
      | .none => s1
      | t =>
        let s2 := { s1 with emitted := s1.emitted ++ [t] }
        let s3 :=
          if (Data.item a).isLayerSignal && t.isStopValue then
            { s2 with stopEvent := true }
          else s2
        { s3 with counter := s3.counter + 1 }

/-- The `while not self.stop_event.is_set()` loop of `process_loop` (layer.py
lines 124-144), run against a finite script of `get_input()` results.  The
stop event is consulted before each `get_input` call, exactly as in the
source; once it is set the remaining script is not consumed. -/
def processLoop (transform : α → Data α) : List (Data α) → LoopState α → LoopState α
  | [], s => s
  | d :: ds, s =>
    if s.stopEvent then s
    else processLoop transform ds (stepLoop transform s d)

/-- Everything the default output port sees over a whole run: the in-loop
deliveries followed by the terminal `handle_output(LayerSignal.STOP)` of
layer.py line 145, emitted after the loop exits. -/
def runOutput (transform : α → Data α) (script : List (Data α)) : List (Data α) :=
  (processLoop transform script initLoopState).emitted ++ [Data.stop]

/-- The first non-`None` value in a `get_input` script. -/
def firstNonNone : List (Data α) → Option (Data α)
  | [] => Option.none
  | .none :: ds => firstNonNone ds
  | d :: _ => some d

/-! ### Multi-shot producer (input_layers.py lines 48-81)

`MultipleShotInputLayer` keeps the inherited `counter`, which is incremented by
the processing loop only on iterations that deliver a non-`None` result
downstream (layer.py line 144).  The layer does not override `transform`
(identity, layer.py lines 104-105), so a call of `get_input` returning
`Data.item v` leads to exactly one delivery and one counter increment, and a
call returning `Data.none` leaves `counter` unchanged. -/

/-- The fields of `MultipleShotInputLayer` relevant to its `get_input`
(constructor at input_layers.py lines 49-56).  `numShots` is the *internal*
value: the constructor argument when `finish` is false, the argument plus one
when `finish` is true (line 53).  `completions` counts the
`self.completion_handler()` invocations. -/
structure MultiShotState where
  counter : Nat
  numShots : Int
  finish : Bool
  expired : Bool
  completions : Nat
deriving DecidableEq, Repr

/-- Embedding of `MultipleShotInputLayer.__init__` (input_layers.py lines 49-56) with
constructor argument `num_shots = n` and the given `finish` flag. -/
def multiShotInit (n : Nat) (finish : Bool) : MultiShotState :=
  { counter := 0,
    numShots := if finish then (n : Int) + 1 else (n : Int),
    finish := finish,
    expired := false,
    completions := 0 }

/-- Embedding of `MultipleShotInputLayer.get_input` (input_layers.py lines 64-81).
`gen` is `self._generate` (the default `generate` returns the counter itself,
lines 58-59, and is assumed to return an actual item).  The `time.sleep(1.0 /
self.rate)` on every branch has no data effect and is not modelled.  Returns
the updated state and the value `get_input` returns (`Data.none` embeds the
bare `return` / falling off the end of the function). -/
def multiShotGetInput (gen : Nat → Int) (s : MultiShotState) : MultiShotState × Data Int :=
  if (s.counter : Int) < s.numShots - 1 then
    -- sleep(1.0/rate); data = self._generate(self.counter); self.tick()
    (s, Data.item (gen s.counter))
  else if (s.counter : Int) = s.numShots - 1 then
    -- sleep(1.0/rate); self.tick(); self.completion_handler()
    let s1 := { s with completions := s.completions + 1 }
    if s1.finish then (s1, Data.item (-1)) else (s1, Data.none)
  else
    let s1 := if !s.expired then { s with expired := true } else s
    -- sleep(1.0/rate); return
    (s1, Data.none)

/-- One `get_input` call as driven by the processing loop with the identity
transform: a non-`None` returned item is delivered downstream and increments
the inherited `counter` (layer.py lines 140, 144); a `None` return skips the
rest of the iteration (layer.py lines 130-131). -/
def multiShotStep (gen : Nat → Int) (s : MultiShotState) : MultiShotState × Data Int :=
  let (s1, d) := multiShotGetInput gen s
  match d with
  | .item _ => ({ s1 with counter := s1.counter + 1 }, d)
  | _ => (s1, d)

/-- Running `calls` successive `get_input` calls of the multi-shot layer under the
processing loop; returns the final state and the list of fired (delivered)
items in order. -/
def multiShotRun (gen : Nat → Int) : Nat → MultiShotState → MultiShotState × List Int
  | 0, s => (s, [])
  | calls + 1, s =>
    let (s1, d) := multiShotStep gen s
    let (s2, fired) := multiShotRun gen calls s1
    (s2, (match d with | .item v => [v] | _ => []) ++ fired)

/-- The default frame generator (`MultipleShotInputLayer.generate`,
input_layers.py lines 58-59): returns the counter. -/
def genId : Nat → Int := fun c => (c : Int)

/-! ### Lemmas about the processing loop -/

/-- Once the stop event is set the loop consumes nothing further. -/
lemma processLoop_stopped (t : α → Data α) (script : List (Data α)) (s : LoopState α)
    (h : s.stopEvent = true) : processLoop t script s = s := by
  cases script with
  | nil => rfl
  | cons d ds => simp [processLoop, h]

/-- Each loop iteration either leaves `counter` and the emission list unchanged
or increments `counter` by one while appending exactly one non-`None` item. -/
lemma stepLoop_counter_emitted (t : α → Data α) (s : LoopState α) (d : Data α) :
    ((stepLoop t s d).counter = s.counter ∧ (stepLoop t s d).emitted = s.emitted)
    ∨ (∃ r, r ≠ Data.none ∧ (stepLoop t s d).counter = s.counter + 1
        ∧ (stepLoop t s d).emitted = s.emitted ++ [r]) := by
  cases d with
  | none => left; simp [stepLoop, Data.isLayerSignal, Data.isStopValue]
  | stop => left; simp [stepLoop, Data.isLayerSignal, Data.isStopValue]
  | item a =>
    rcases h : t a with _ | _ | b
    · left
      simp only [stepLoop, Data.isLayerSignal, Data.isStopValue, Bool.false_and,
        Bool.false_eq_true, if_false, h]
      split <;> simp
    · right
      refine ⟨Data.stop, by simp, ?_⟩
      simp only [stepLoop, Data.isLayerSignal, Data.isStopValue, Bool.false_and,
        Bool.false_eq_true, if_false, h]
      split <;> simp
    · right
      refine ⟨Data.item b, by simp, ?_⟩
      simp only [stepLoop, Data.isLayerSignal, Data.isStopValue, Bool.false_and,
        Bool.false_eq_true, if_false, h]
      split <;> simp

/-- Invariant preservation: `counter` stays equal to the number of delivered
items, and every delivered item is non-`None`. -/
lemma processLoop_counter_inv (t : α → Data α) :
    ∀ (script : List (Data α)) (s : LoopState α),
      s.counter = s.emitted.length → (∀ d ∈ s.emitted, d ≠ Data.none) →
      (processLoop t script s).counter = (processLoop t script s).emitted.length
      ∧ ∀ d ∈ (processLoop t script s).emitted, d ≠ Data.none := by
  intro script
  induction script with
  | nil => intro s h1 h2; exact ⟨h1, h2⟩
  | cons d ds ih =>
    intro s h1 h2
    have hl : processLoop t (d :: ds) s
        = if s.stopEvent then s else processLoop t ds (stepLoop t s d) := rfl
    by_cases hs : s.stopEvent
    · rw [hl, if_pos hs]
      exact ⟨h1, h2⟩
    · rw [hl, if_neg hs]
      rcases stepLoop_counter_emitted t s d with ⟨hc, he⟩ | ⟨r, hr, hc, he⟩
      · exact ih _ (by rw [hc, he, h1]) (by rw [he]; exact h2)
      · refine ih _ (by rw [hc, he, h1]; simp) ?_
        rw [he]
        intro x hx
        rcases List.mem_append.mp hx with hx | hx
        · exact h2 x hx
        · rcases List.mem_singleton.mp hx with rfl; exact hr

/-- A step on a `None` or `STOP` input changes neither `is_first` nor the
record of `post_init` calls. -/
lemma stepLoop_skip (t : α → Data α) (s : LoopState α) (d : Data α)
    (h : d = Data.none ∨ d = Data.stop) :
    (stepLoop t s d).isFirst = s.isFirst ∧ (stepLoop t s d).postInits = s.postInits := by
  rcases h with rfl | rfl <;>
    simp [stepLoop, Data.isLayerSignal, Data.isStopValue]

/-- Once `is_first` is cleared it stays cleared and `post_init` is never called
again. -/
lemma processLoop_isFirst_false (t : α → Data α) :
    ∀ (script : List (Data α)) (s : LoopState α), s.isFirst = false →
      (processLoop t script s).isFirst = false
      ∧ (processLoop t script s).postInits = s.postInits := by
  intro script
  induction script with
  | nil => intro s h; exact ⟨h, rfl⟩
  | cons d ds ih =>
    intro s h
    have hl : processLoop t (d :: ds) s
        = if s.stopEvent then s else processLoop t ds (stepLoop t s d) := rfl
    by_cases hs : s.stopEvent
    · rw [hl, if_pos hs]; exact ⟨h, rfl⟩
    · rw [hl, if_neg hs]
      have hstep : (stepLoop t s d).isFirst = false ∧ (stepLoop t s d).postInits = s.postInits := by
        cases d with
        | none => simp [stepLoop, Data.isLayerSignal, Data.isStopValue, h]
        | stop => simp [stepLoop, Data.isLayerSignal, Data.isStopValue, h]
        | item a =>
          rcases ht : t a with _ | _ | b <;>
            simp [stepLoop, Data.isLayerSignal, Data.isStopValue, h, ht]
      obtain ⟨hf, hp⟩ := hstep
      obtain ⟨hf2, hp2⟩ := ih _ hf
      exact ⟨hf2, by rw [hp2, hp]⟩

/-- The list of `transform` arguments only grows. -/
lemma processLoop_transformCalls_mono (t : α → Data α) :
    ∀ (script : List (Data α)) (s : LoopState α),
      ∃ ext, (processLoop t script s).transformCalls = s.transformCalls ++ ext := by
  intro script
  induction script with
  | nil => intro s; exact ⟨[], by simp [processLoop]⟩
  | cons d ds ih =>
    intro s
    have hl : processLoop t (d :: ds) s
        = if s.stopEvent then s else processLoop t ds (stepLoop t s d) := rfl
    by_cases hs : s.stopEvent
    · exact ⟨[], by rw [hl, if_pos hs, List.append_nil]⟩
    · rw [hl, if_neg hs]
      have hstep : ∃ e1, (stepLoop t s d).transformCalls = s.transformCalls ++ e1 := by
        cases d with
        | none => exact ⟨[], by simp [stepLoop, Data.isLayerSignal, Data.isStopValue]⟩
        | stop => exact ⟨[], by simp [stepLoop, Data.isLayerSignal, Data.isStopValue]⟩
        | item a =>
          refine ⟨[a], ?_⟩
          rcases ht : t a with _ | _ | b <;>
            simp only [stepLoop, Data.isLayerSignal, Data.isStopValue, Bool.false_and,
              Bool.false_eq_true, if_false, ht] <;> split <;> simp
      obtain ⟨e1, h1⟩ := hstep
      obtain ⟨e2, h2⟩ := ih (stepLoop t s d)
      exact ⟨e1 ++ e2, by rw [h2, h1, List.append_assoc]⟩

/-- The first surviving item fills `post_init` and is the first `transform`
argument. -/
lemma stepLoop_item_first (t : α → Data α) (s : LoopState α) (a : α)
    (hf : s.isFirst = true) (hp : s.postInits = []) (hc : s.transformCalls = []) :
    (stepLoop t s (Data.item a)).postInits = [a]
    ∧ (stepLoop t s (Data.item a)).isFirst = false
    ∧ (stepLoop t s (Data.item a)).transformCalls = [a]
    ∧ (stepLoop t s (Data.item a)).stopEvent = s.stopEvent := by
  rcases ht : t a with _ | _ | b <;>
    simp [stepLoop, Data.isLayerSignal, Data.isStopValue, hf, hp, hc, ht]

/-- Main `post_init` characterization: starting from a fresh first-tick state,
either `post_init` never ran, or it ran exactly once with the first
non-`None` script entry, which is also the first `transform` argument. -/
lemma processLoop_post_init_spec (t : α → Data α) :
    ∀ (script : List (Data α)) (s : LoopState α),
      s.isFirst = true → s.postInits = [] → s.transformCalls = [] →
      ((processLoop t script s).postInits = []
        ∧ (processLoop t script s).transformCalls = [])
      ∨ (∃ a, (processLoop t script s).postInits = [a]
          ∧ firstNonNone script = some (Data.item a)
          ∧ (processLoop t script s).transformCalls.head? = some a) := by
  intro script
  induction script with
  | nil => intro s _ hp hc; exact Or.inl ⟨hp, hc⟩
  | cons d ds ih =>
    intro s hf hp hc
    have hl : processLoop t (d :: ds) s
        = if s.stopEvent then s else processLoop t ds (stepLoop t s d) := rfl
    by_cases hs : s.stopEvent
    · rw [hl, if_pos hs]
      exact Or.inl ⟨hp, hc⟩
    · rw [hl, if_neg hs]
      cases d with
      | none =>
        have hstep : stepLoop t s Data.none = s := by
          simp [stepLoop, Data.isLayerSignal, Data.isStopValue]
        rw [hstep]
        rcases ih s hf hp hc with h | ⟨a, h1, h2, h3⟩
        · exact Or.inl h
        · exact Or.inr ⟨a, h1, by simpa [firstNonNone] using h2, h3⟩
      | stop =>
        have hstep : stepLoop t s Data.stop = { s with stopEvent := true } := by
          simp [stepLoop, Data.isLayerSignal, Data.isStopValue]
        rw [hstep, processLoop_stopped t ds _ rfl]
        exact Or.inl ⟨hp, hc⟩
      | item a =>
        obtain ⟨h1, h2, h3, _⟩ := stepLoop_item_first t s a hf hp hc
        obtain ⟨hf2, hp2⟩ := processLoop_isFirst_false t ds _ h2
        obtain ⟨ext, hext⟩ := processLoop_transformCalls_mono t ds (stepLoop t s (Data.item a))
        refine Or.inr ⟨a, by rw [hp2, h1], by simp [firstNonNone], ?_⟩
        rw [hext, h3]
        simp

/-! ### Concrete examples used by the claim witnesses -/

/-- The identity transform (the default `BaseLayer.transform`, layer.py lines
104-105). -/
def idTransform : Nat → Data Nat := fun a => Data.item a

/-- A transform that always returns the `STOP` sentinel, as the callback
contract permits (`transform(item_or_map) -> Item | NONE | STOP`). -/
def stopTransform : Nat → Data Nat := fun _ => Data.stop

/-- A small `get_input` script: a skipped tick followed by two items. -/
def sampleScript : List (Data Nat) := [Data.none, Data.item 7, Data.item 8]

/-! ### Claim theorems for the base layer and the multi-shot producer -/

/-- C1: the claim (and the layer's own doc comment, input_layers.py lines
37-46) says a multi-shot layer with `num_shots = n`, `finish = False` fires
exactly `n` times, invokes `completion_handler` exactly once, and sets
`expired` on the first call after the last fire.  The code disagrees: since
`counter` is only incremented by the processing loop when a non-`None` value
is delivered (layer.py line 144), returning `None` in the
`counter == num_shots - 1` branch freezes `counter` there.  Evaluating the
code with `num_shots = 2, finish = False` over four `get_input` calls: only
one item fires (`[0]`, not `[0, 1]`), `completion_handler` runs three times
(once per post-fire call, unboundedly many in a longer run), and `expired`
is never set. -/
theorem C1_multi_shot_finish_false_divergence :
    (multiShotRun genId 4 (multiShotInit 2 false)).2 = [0]
    ∧ (multiShotRun genId 4 (multiShotInit 2 false)).1.completions = 3
    ∧ (multiShotRun genId 4 (multiShotInit 2 false)).1.expired = false := by
  decide

/-- C2: the claim says that a tick whose transform returns `STOP` sets the
layer's stop event by the end of the tick, so the loop exits on the next
iteration.  The code disagrees: the guard at layer.py line 142 tests
`isinstance(data, LayerSignal)` on the *input* (which lines 126-128 make
impossible at that point) instead of on `data_transformed`, so the branch is
dead.  Evaluating a run whose transform always returns `STOP` over two item
inputs: the stop event is never set, the loop keeps running (`counter = 2`),
and `STOP` is forwarded downstream as an ordinary item on both ticks. -/
theorem C2_transform_stop_not_honored :
    (processLoop stopTransform [Data.item 0, Data.item 1] initLoopState).stopEvent = false
    ∧ (processLoop stopTransform [Data.item 0, Data.item 1] initLoopState).emitted
        = [Data.stop, Data.stop]
    ∧ (processLoop stopTransform [Data.item 0, Data.item 1] initLoopState).counter = 2 := by
  decide

/-- C4: a processing-loop iteration increments `counter` by exactly one iff it
delivers a non-`None` transform result downstream (otherwise both `counter`
and the emission list are unchanged); consequently `counter` always equals the
number of non-`None` items emitted on the default output port by the loop, and
the terminal `STOP` emitted after loop exit is the one port item not counted. -/
theorem C4_counter_counts_emissions (t : α → Data α) (script : List (Data α)) :
    ((processLoop t script initLoopState).counter
        = (processLoop t script initLoopState).emitted.length
      ∧ (∀ d ∈ (processLoop t script initLoopState).emitted, d ≠ Data.none)
      ∧ (runOutput t script).length = (processLoop t script initLoopState).counter + 1)
    ∧ ∀ (s : LoopState α) (d : Data α),
        ((stepLoop t s d).counter = s.counter ∧ (stepLoop t s d).emitted = s.emitted)
        ∨ (∃ r, r ≠ Data.none ∧ (stepLoop t s d).counter = s.counter + 1
            ∧ (stepLoop t s d).emitted = s.emitted ++ [r]) := by
  obtain ⟨h1, h2⟩ := processLoop_counter_inv t script initLoopState rfl (by simp [initLoopState])
  exact ⟨⟨h1, h2, by simp [runOutput, h1]⟩, fun s d => stepLoop_counter_emitted t s d⟩

/-- C4 witness: on the sample run (identity transform, script
`[None, 7, 8]`) the counter equals the number of in-loop emissions. -/
theorem C4_counter_counts_emissions_witness :
    (processLoop idTransform sampleScript initLoopState).counter
      = (processLoop idTransform sampleScript initLoopState).emitted.length :=
  (C4_counter_counts_emissions idTransform sampleScript).1.1

/-- C5: `post_init` runs at most once per layer lifetime; when it runs, its
argument is the first non-`None` value `get_input` returned (necessarily a
payload item, not `STOP`: a `STOP` input stops the loop before `post_init`
could see it), and that same item is the first `transform` argument.
Iterations whose input is `None` or `STOP` neither invoke `post_init` nor
clear `is_first`. -/
theorem C5_post_init_once (t : α → Data α) (script : List (Data α)) :
    (processLoop t script initLoopState).postInits.length ≤ 1
    ∧ (∀ a, (processLoop t script initLoopState).postInits = [a] →
        firstNonNone script = some (Data.item a)
        ∧ (processLoop t script initLoopState).transformCalls.head? = some a)
    ∧ ∀ (s : LoopState α) (d : Data α), (d = Data.none ∨ d = Data.stop) →
        (stepLoop t s d).isFirst = s.isFirst ∧ (stepLoop t s d).postInits = s.postInits := by
  rcases processLoop_post_init_spec t script initLoopState rfl rfl rfl with ⟨hp, _⟩ | ⟨a, h1, h2, h3⟩
  · refine ⟨by simp [hp], fun a ha => ?_, fun s d h => stepLoop_skip t s d h⟩
    rw [hp] at ha; cases ha
  · refine ⟨by simp [h1], fun b hb => ?_, fun s d h => stepLoop_skip t s d h⟩
    rw [h1] at hb
    cases hb
    exact ⟨h2, h3⟩

/-- C5 witness: on the sample run the single `post_init` argument is `7`, the
first non-`None` script entry, which also heads the transform-call record. -/
theorem C5_post_init_once_witness :
    firstNonNone sampleScript = some (Data.item 7)
    ∧ (processLoop idTransform sampleScript initLoopState).transformCalls.head? = some 7 :=
  (C5_post_init_once idTransform sampleScript).2.1 7 (by decide)

/-! ### Transform role: input queues and trigger policies (layer.py 266-357)

A transform layer's input side is a key-ordered list `keys` and, per key, a
subscriber queue.  Queues are lists with the head at the front: the blocking
`Queue.get` takes the head (and, in this sequential model, is undefined —
blocks — on an empty queue), the non-blocking `get_nowait` takes the head or
raises `queue.Empty` on an empty queue.  The queue map is a function from key
to queue; `updateQ` is pointwise update. -/

/-- Pointwise update of the queue map. -/
def updateQ (qs : String → List α) (k : String) (q : List α) : String → List α :=
  fun k' => if k' = k then q else qs k'

/-- First-match lookup in an association list, as Python `dict` indexing /
`in` tests behave for the small maps built here (keys are unique wherever the
source guarantees it). -/
def alookup : List (String × α) → String → Option α
  | [], _ => Option.none
  | (k', v) :: rest, k => if k' = k then some v else alookup rest k

/-- The inner `while True: data[key] = q.get_nowait(); if not discard_old:
break` pattern of `get_all_nowait` / `get_ensure_layer` (layer.py lines
317-323 and 350-356): on an empty queue `queue.Empty` is caught and the key
yields nothing; otherwise with `discard_old` the whole queue is drained and
the last element kept, without it only the head is taken. -/
def takeNowait (discardOld : Bool) : List α → Option α × List α
  | [] => (Option.none, [])
  | x :: rest => if discardOld then (some (rest.getLastD x), []) else (some x, rest)

/-- The per-key body of `get_all` (layer.py lines 305-311): a blocking
`q.get()` (head of a non-empty queue; `Option.none` marks that the call would
block forever on an empty queue), followed, when `discard_old` is set, by a
drain of everything immediately available keeping only the last element. -/
def takeBlocking (discardOld : Bool) : List α → Option (α × List α)
  | [] => Option.none
  | x :: rest =>
    some (if discardOld then (rest.getLastD x, []) else (x, rest))

/-- Embedding of `TransformMixin.get_all_nowait` (layer.py lines 314-324): for each key in
order, non-blockingly drain; a key whose queue is empty is omitted from the
returned map.  Returns the map (in key order) and the updated queues. -/
def get_all_nowait (discardOld : Bool) :
    List String → (String → List α) → List (String × α) × (String → List α)
  | [], qs => ([], qs)
  | k :: rest, qs =>
    let t := takeNowait discardOld (qs k)
    let r := get_all_nowait discardOld rest (updateQ qs k t.2)
    (match t.1 with
     | some v => (k, v) :: r.1
     | Option.none => r.1, r.2)

/-- Embedding of `TransformMixin.get_all` (layer.py lines 302-312), the SLOWEST gather: for
each key in order, block until one item is available, then optionally drain.
`Option.none` means some blocking `get` never returns (an empty queue with no
producer in this sequential model). -/
def get_all (discardOld : Bool) :
    List String → (String → List α) → Option (List (String × α) × (String → List α))
  | [], qs => some ([], qs)
  | k :: rest, qs =>
    match takeBlocking discardOld (qs k) with
    | Option.none => Option.none
    | some vq =>
      match get_all discardOld rest (updateQ qs k vq.2) with
      | Option.none => Option.none
      | some r => some ((k, vq.1) :: r.1, r.2)

/-- One polling pass of `TransformMixin.get_any` (layer.py lines 330-338,
the FASTEST policy): try a non-blocking take on each key in order; the first
key whose queue is non-empty wins and its head is returned at once (the `data`
dict therefore holds exactly this one entry at the `return`).  `Option.none`
means the pass found every queue empty.  Port fan-out never enqueues Python
`None` (layer.py line 41), so a successful `get_nowait` always passes the
`value is not None` test. -/
def get_any_pass : List String → (String → List α) → Option (String × α)
  | [], _ => Option.none
  | k :: rest, qs =>
    match qs k with
    | [] => get_any_pass rest qs
    | x :: _ => some (k, x)

/-- The full `get_any` loop (layer.py lines 326-341) with exponential backoff,
run against a stream `qss` of queue snapshots, `qss i` being the queue
contents seen by polling pass `i` (arrivals between passes are external; a
failed pass removes nothing).  `sleepMs` is the `sleep_time` in milliseconds,
initially 1 (`0.001` s), doubled after each empty pass; the sleep executed
after empty pass `i` lasts the current value of `sleepMs`.  Returns the
returned map `data`, the index of the successful pass, and `sleep_time` at
that moment; `Option.none` when `fuel` passes were exhausted. -/
def get_any_from (keys : List String) (qss : Nat → String → List α) :
    Nat → Nat → Nat → Option (List (String × α) × Nat × Nat)
  | _, _, 0 => Option.none
  | i, sleepMs, fuel + 1 =>
    match get_any_pass keys (qss i) with
    | some (k, x) => some ([(k, x)], i, sleepMs)
    | Option.none => get_any_from keys qss (i + 1) (sleepMs * 2) fuel

/-- Embedding of `TransformMixin.get_ensure_layer` (layer.py lines 342-357), the LAYER
policy body after its `assert(layer in self.keys)`: block on the trigger key
for one item, then non-blockingly drain every other key in order (keeping the
first item without `discard_old`, the last with it; omitting empty keys).
`Option.none` means the blocking get never returns. -/
def get_ensure_layer (discardOld : Bool) (layerKey : String) (keys : List String)
    (qs : String → List α) : Option (List (String × α) × (String → List α)) :=
  match qs layerKey with
  | [] => Option.none
  | x :: r =>
    let g :=
      get_all_nowait discardOld (keys.filter (fun k => k ≠ layerKey)) (updateQ qs layerKey r)
    some ((layerKey, x) :: g.1, g.2)

/-- The `LayerTrigger` enum (layer.py lines 11-15). -/
inductive LayerTrigger where
  | slowest
  | fastest
  | layer
  | timer
deriving DecidableEq, Repr

/-- The value passed as the `trigger` constructor argument: one of the four
`LayerTrigger` members, or any other Python value (the constructor performs no
validation, so nothing rules this out at graph-building time). -/
inductive TriggerVal where
  | known (t : LayerTrigger)
  | other
deriving DecidableEq, Repr

/-- The exceptions the transform input path can raise. -/
inductive PyErr where
  | keyError
  | indexError
  | assertionError
  | nameError
deriving DecidableEq, Repr

/-- What `get_input` hands to `transform`: the raw sub-item when the key list
is exactly `["default"]`, otherwise the gathered map (layer.py lines
298-300). -/
inductive MapOrItem (α : Type) where
  | raw (v : α)
  | map (m : List (String × α))
deriving DecidableEq, Repr

/-- The `TransformMixin` fields set by its constructor (layer.py lines
268-276). `triggerSource` is the `trigger_source` argument as used by the
LAYER policy (a key name); the TIMER policy uses it only as a sleep duration,
which has no data effect. -/
structure TransformCfg where
  keys : List String
  trigger : TriggerVal
  triggerSource : Option String
  discardOld : Bool
deriving DecidableEq, Repr

/-- Embedding of `TransformMixin.__init__` (layer.py lines 268-276): stores the inputs and,
when a `port_in` is given, runs `set_input(port_in)` which appends the key
`'default'` (its two asserts hold on the fresh instance: the argument is a
`BasePort` and `'default'` is not yet a key).  The trigger value is stored
unchecked — no code path inspects it here, so construction never raises on an
unknown trigger. -/
def transform_init (portGiven : Bool) (trigger : TriggerVal) (triggerSource : Option String)
    (discardOld : Bool) : Except PyErr TransformCfg :=
  .ok { keys := if portGiven then ["default"] else [],
        trigger := trigger, triggerSource := triggerSource, discardOld := discardOld }

/-- The tail of `TransformMixin.get_input` (layer.py lines 298-300):
`if self.keys[0] == 'default' and len(self.keys) == 1: return data['default']`.
Indexing `keys[0]` on an empty key list raises `IndexError`; indexing the
gathered dict at `'default'` raises `KeyError` when the key is absent (an
empty gather). -/
def finalize_input (keys : List String) (data : List (String × α)) :
    Except PyErr (MapOrItem α) :=
  match keys with
  | [] => .error .indexError
  | k :: rest =>
    if k = "default" ∧ rest = [] then
      match alookup data "default" with
      | some v => .ok (.raw v)
      | Option.none => .error .keyError
    else .ok (.map data)

/-- Outcome of one `TransformMixin.get_input` call: a delivered value plus the
updated queues, a raised exception, or an unbounded block (a blocking `get`
that never returns, or the FASTEST backoff loop with no arrivals). -/
inductive GetInputOutcome (α : Type) where
  | ok (r : MapOrItem α) (qs : String → List α)
  | raise (e : PyErr)
  | blocks

/-- Embedding of `TransformMixin.get_input` (layer.py lines 284-300) over the current queue
contents (static during the call; the FASTEST branch under a static snapshot
either succeeds on the first pass or backs off forever).  The trigger dispatch
is the `if/elif` chain of lines 286-296; the final `else: assert(False)` is
the unknown-trigger case.  The LAYER branch first runs
`assert(layer in self.keys)` (layer.py line 344); a `trigger_source` that is
no key — in particular `None` — fails that assert. -/
def transform_get_input (cfg : TransformCfg) (qs : String → List α) : GetInputOutcome α :=
  match cfg.trigger with
  | .known .timer =>
    -- sleep(self.trigger_source), then gather without blocking
    let g := get_all_nowait cfg.discardOld cfg.keys qs
    match finalize_input cfg.keys g.1 with
    | .ok r => .ok r g.2
    | .error e => .raise e
  | .known .slowest =>
    match get_all cfg.discardOld cfg.keys qs with
    | Option.none => .blocks
    | some (data, qs') =>
      match finalize_input cfg.keys data with
      | .ok r => .ok r qs'
      | .error e => .raise e
  | .known .fastest =>
    match get_any_pass cfg.keys qs with
    | Option.none => .blocks
    | some (k, x) =>
      match finalize_input cfg.keys [(k, x)] with
      | .ok r => .ok r (updateQ qs k (qs k).tail)
      | .error e => .raise e
  | .known .layer =>
    match cfg.triggerSource with
    | Option.none => .raise .assertionError
    | some tk =>
      if tk ∈ cfg.keys then
        match get_ensure_layer cfg.discardOld tk cfg.keys qs with
        | Option.none => .blocks
        | some (data, qs') =>
          match finalize_input cfg.keys data with
          | .ok r => .ok r qs'
          | .error e => .raise e
      else .raise .assertionError
  | .other => .raise .assertionError

/-- Number of successful SLOWEST ticks obtainable from the given backlog with
no further arrivals: iterate `get_all`; a blocked call ends the count.  `fuel`
bounds the iteration and is chosen larger than any possible tick count. -/
def slowestTicks (discardOld : Bool) (keys : List String) :
    (String → List α) → Nat → Nat
  | _, 0 => 0
  | qs, fuel + 1 =>
    match get_all discardOld keys qs with
    | Option.none => 0
    | some (_, qs') => 1 + slowestTicks discardOld keys qs' fuel

/-! ### Lemmas about the trigger-policy gathers -/

/-- A non-blocking gather over all-empty queues returns the empty map. -/
lemma get_all_nowait_all_empty (d : Bool) :
    ∀ (keys : List String) (qs : String → List α),
      (∀ k ∈ keys, qs k = []) → (get_all_nowait d keys qs).1 = [] := by
  intro keys
  induction keys with
  | nil => intro qs _; rfl
  | cons k rest ih =>
    intro qs h
    have hk : qs k = [] := h k (by simp)
    simp only [get_all_nowait, hk, takeNowait]
    exact ih _ (fun k' hk' => by
      simp only [updateQ]
      split
      · rfl
      · exact h k' (List.mem_cons_of_mem _ hk'))

/-- A successful SLOWEST gather contains exactly one entry per key, in key
order. -/
lemma get_all_domain (d : Bool) :
    ∀ (keys : List String) (qs : String → List α) (m : List (String × α))
      (qs' : String → List α),
      get_all d keys qs = some (m, qs') → m.map Prod.fst = keys := by
  intro keys
  induction keys with
  | nil =>
    intro qs m qs' h
    simp only [get_all] at h
    cases h
    rfl
  | cons k rest ih =>
    intro qs m qs' h
    simp only [get_all] at h
    cases hb : takeBlocking d (qs k) with
    | none => rw [hb] at h; cases h
    | some vq =>
      rw [hb] at h
      have h1 : (match get_all d rest (updateQ qs k vq.2) with
          | Option.none => Option.none
          | some r => some ((k, vq.1) :: r.1, r.2)) = some (m, qs') := h
      cases hr : get_all d rest (updateQ qs k vq.2) with
      | none => rw [hr] at h1; cases h1
      | some mq =>
        rw [hr] at h1
        have h2 : some ((k, vq.1) :: mq.1, mq.2) = some (m, qs') := h1
        cases h2
        simpa using ih _ _ _ hr

/-- A SLOWEST gather leaves queues of keys outside the key list untouched. -/
lemma get_all_frame (d : Bool) :
    ∀ (keys : List String) (qs : String → List α) (m : List (String × α))
      (qs' : String → List α),
      get_all d keys qs = some (m, qs') → ∀ k, k ∉ keys → qs' k = qs k := by
  intro keys
  induction keys with
  | nil =>
    intro qs m qs' h k _
    simp only [get_all] at h
    cases h
    rfl
  | cons k0 rest ih =>
    intro qs m qs' h k hk
    simp only [get_all] at h
    cases hb : takeBlocking d (qs k0) with
    | none => rw [hb] at h; cases h
    | some vq =>
      rw [hb] at h
      have h0 : (match get_all d rest (updateQ qs k0 vq.2) with
          | Option.none => Option.none
          | some r => some ((k0, vq.1) :: r.1, r.2)) = some (m, qs') := h
      cases hr : get_all d rest (updateQ qs k0 vq.2) with
      | none => rw [hr] at h0; cases h0
      | some mq =>
        rw [hr] at h0
        have h2 : some ((k0, vq.1) :: mq.1, mq.2) = some (m, qs') := h0
        cases h2
        have h1 : mq.2 k = updateQ qs k0 vq.2 k :=
          ih _ _ _ hr k (fun hmem => hk (List.mem_cons_of_mem _ hmem))
        have hne : k ≠ k0 := fun he => hk (he ▸ List.mem_cons_self k0 rest)
        rw [h1]
        simp [updateQ, hne]

/-- Without `discard_old` a SLOWEST gather on nonempty queues succeeds and
consumes exactly the head of each key's queue. -/
lemma get_all_false_spec :
    ∀ (keys : List String) (qs : String → List α),
      keys.Nodup → (∀ k ∈ keys, qs k ≠ []) →
      ∃ m qs', get_all false keys qs = some (m, qs')
        ∧ ∀ k ∈ keys, qs' k = (qs k).tail := by
  intro keys
  induction keys with
  | nil => intro qs _ _; exact ⟨[], qs, rfl, by simp⟩
  | cons k rest ih =>
    intro qs hnd hne
    have hk : qs k ≠ [] := hne k (List.mem_cons_self k rest)
    cases hq : qs k with
    | nil => exact absurd hq hk
    | cons x r =>
      have hknotin : k ∉ rest := (List.nodup_cons.mp hnd).1
      have hndrest : rest.Nodup := (List.nodup_cons.mp hnd).2
      have hrest : ∀ k' ∈ rest, updateQ qs k r k' ≠ [] := by
        intro k' hk'
        have hne' : k' ≠ k := fun he => hknotin (he ▸ hk')
        simpa [updateQ, hne'] using hne k' (List.mem_cons_of_mem _ hk')
      obtain ⟨m, qs', heq, htail⟩ := ih (updateQ qs k r) hndrest hrest
      refine ⟨(k, x) :: m, qs', ?_, ?_⟩
      · simp only [get_all, hq, takeBlocking, if_neg (by simp : ¬ false = true), heq]
      · intro k0 hk0
        rcases List.mem_cons.mp hk0 with rfl | hk0
        · have := get_all_frame false rest _ _ _ heq k0 hknotin
          rw [this]
          simp [updateQ, hq]
        · have hne' : k0 ≠ k := fun he => hknotin (he ▸ hk0)
          have := htail k0 hk0
          rw [this]
          simp [updateQ, hne', List.tail]

/-- A SLOWEST gather blocks as soon as the first key's queue is empty. -/
lemma get_all_blocks_of_empty (d : Bool) (k : String) (rest : List String)
    (qs : String → List α) (h : qs k = []) :
    get_all d (k :: rest) qs = Option.none := by
  simp [get_all, h, takeBlocking]

/-- A successful FASTEST pass finds the first key with a nonempty queue and
takes its head. -/
lemma get_any_pass_spec :
    ∀ (keys : List String) (qs : String → List α) (k : String) (x : α),
      get_any_pass keys qs = some (k, x) →
      ∃ pre post, keys = pre ++ k :: post ∧ (∀ k' ∈ pre, qs k' = [])
        ∧ ∃ t, qs k = x :: t := by
  intro keys
  induction keys with
  | nil => intro qs k x h; cases h
  | cons k0 rest ih =>
    intro qs k x h
    simp only [get_any_pass] at h
    cases hq : qs k0 with
    | nil =>
      rw [hq] at h
      obtain ⟨pre, post, heq, hpre, ht⟩ := ih qs k x h
      exact ⟨k0 :: pre, post, by rw [heq]; rfl,
        fun k' hk' => by
          rcases List.mem_cons.mp hk' with rfl | hk'
          · exact hq
          · exact hpre k' hk', ht⟩
    | cons x0 t =>
      rw [hq] at h
      cases h
      exact ⟨[], rest, rfl, by simp, t, hq⟩

/-- Backoff accounting for the FASTEST loop: starting from pass `i0` with
sleep `s0`, a successful return at pass `i` reports `sleep_time =
s0 * 2 ^ (i - i0)`, every strictly earlier pass was empty, and the returned
map is the single entry found at pass `i`. -/
lemma get_any_from_spec (keys : List String) (qss : Nat → String → List α) :
    ∀ (fuel i0 s0 : Nat) (m : List (String × α)) (i s : Nat),
      get_any_from keys qss i0 s0 fuel = some (m, i, s) →
      i0 ≤ i ∧ s = s0 * 2 ^ (i - i0)
        ∧ (∀ j, i0 ≤ j → j < i → get_any_pass keys (qss j) = Option.none)
        ∧ ∃ k x, m = [(k, x)] ∧ get_any_pass keys (qss i) = some (k, x) := by
  intro fuel
  induction fuel with
  | zero => intro i0 s0 m i s h; cases h
  | succ fuel ih =>
    intro i0 s0 m i s h
    simp only [get_any_from] at h
    cases hp : get_any_pass keys (qss i0) with
    | some kx =>
      rw [hp] at h
      cases h
      refine ⟨le_refl _, by simp, fun j h1 h2 => absurd (lt_of_le_of_lt h1 h2) (lt_irrefl _), ?_⟩
      exact ⟨kx.1, kx.2, rfl, by rw [hp]⟩
    | none =>
      rw [hp] at h
      obtain ⟨h1, h2, h3, h4⟩ := ih (i0 + 1) (s0 * 2) m i s h
      have hle : i0 ≤ i := Nat.le_of_succ_le h1
      refine ⟨hle, ?_, ?_, h4⟩
      · rw [h2]
        have hsub : i - i0 = (i - (i0 + 1)) + 1 := by omega
        rw [hsub, pow_succ]
        ring
      · intro j hj1 hj2
        rcases Nat.eq_or_lt_of_le hj1 with rfl | hj1
        · exact hp
        · exact h3 j hj1 hj2

/-! ### Claim theorems for the transform role -/

/-- C3 counterexample: the claim says an empty gathered map is delivered to
`transform` as-is "including when the key list is exactly `[\x22default\x22]`".
In that very case the unwrapping line `return data['default']` (layer.py line
299) raises `KeyError` instead: a TIMER-triggered layer with the single
`default` input and an empty queue raises rather than delivering. -/
theorem C3_empty_default_raises_keyerror :
    transform_get_input
        { keys := ["default"], trigger := .known .timer,
          triggerSource := Option.none, discardOld := false }
        (fun _ => ([] : List Nat))
      = GetInputOutcome.raise PyErr.keyError := rfl

/-- C3 amended: an empty gathered map is delivered to `transform` as-is
whenever the key list is not exactly `["default"]`; with key list exactly
`["default"]` the unwrapping lookup raises `KeyError` (see the
counterexample).  Stated for the TIMER policy, under which every queried queue
being empty produces the empty map. -/
theorem C3_empty_map_delivered (keys : List String) (ts : Option String) (d : Bool)
    (qs : String → List α) (hne : keys ≠ []) (hnd : keys ≠ ["default"])
    (hempty : ∀ k ∈ keys, qs k = []) :
    ∃ qs', transform_get_input
        { keys := keys, trigger := .known .timer, triggerSource := ts, discardOld := d } qs
      = GetInputOutcome.ok (MapOrItem.map []) qs' := by
  obtain ⟨k, rest, rfl⟩ : ∃ k rest, keys = k :: rest := by
    cases keys with
    | nil => exact absurd rfl hne
    | cons k rest => exact ⟨k, rest, rfl⟩
  have h1 : (get_all_nowait d (k :: rest) qs).1 = [] :=
    get_all_nowait_all_empty d (k :: rest) qs hempty
  have hfin : finalize_input (k :: rest) ([] : List (String × α)) = .ok (.map []) := by
    simp only [finalize_input]
    rw [if_neg (by rintro ⟨rfl, rfl⟩; exact hnd rfl)]
  refine ⟨(get_all_nowait d (k :: rest) qs).2, ?_⟩
  show (match finalize_input (k :: rest) (get_all_nowait d (k :: rest) qs).1 with
        | .ok r => GetInputOutcome.ok r (get_all_nowait d (k :: rest) qs).2
        | .error e => GetInputOutcome.raise e)
      = GetInputOutcome.ok (MapOrItem.map []) (get_all_nowait d (k :: rest) qs).2
  rw [h1, hfin]

/-- C3 witness: a TIMER layer with keys `a, b` and empty queues delivers the
empty map to `transform`. -/
theorem C3_empty_map_delivered_witness :
    ∃ qs', transform_get_input
        { keys := ["a", "b"], trigger := .known .timer,
          triggerSource := Option.none, discardOld := false }
        (fun _ => ([] : List Nat))
      = GetInputOutcome.ok (MapOrItem.map []) qs' :=
  C3_empty_map_delivered ["a", "b"] Option.none false (fun _ => [])
    (by decide) (by decide) (by simp)

/-- C6 counterexample: the claim says a feed of `k` items on every key yields
exactly `k` ticks "regardless of rate skew".  With `discard_old = true` and
both items of a two-item backlog already queued, the first `get_all` drains
the whole queue and keeps only the last item, so a feed of `k = 2` items per
key yields a single tick. -/
theorem C6_discard_old_fewer_ticks :
    (∀ k ∈ ["a"], ((fun _ => ([0, 1] : List Nat)) k).length = 2)
    ∧ slowestTicks true ["a"] (fun _ => ([0, 1] : List Nat)) 5 = 1
    ∧ (1 : Nat) ≠ 2 := by
  decide

/-- C6 amended: under SLOWEST, `get_all` blocks on each key in order and (with
`discard_old`) drains immediately-available items keeping the last; every
successful gather returns exactly one item per key, in key order.  With
`discard_old = false` the consequence holds as claimed: a backlog of `k`
items on every (distinct) key yields exactly `k` ticks.  With
`discard_old = true` immediately-available backlog is collapsed, so ticks can
be fewer than `k` (see the counterexample). -/
theorem C6_slowest_one_item_per_key_ticks :
    (∀ (d : Bool) (keys : List String) (qs : String → List α)
        (m : List (String × α)) (qs' : String → List α),
        get_all d keys qs = some (m, qs') → m.map Prod.fst = keys)
    ∧ ∀ (keys : List String) (qs : String → List α) (k fuel : Nat),
        keys.Nodup → keys ≠ [] → (∀ key ∈ keys, (qs key).length = k) → k < fuel →
        slowestTicks false keys qs fuel = k := by
  refine ⟨fun d keys qs m qs' h => get_all_domain d keys qs m qs' h, ?_⟩
  intro keys qs k
  induction k generalizing qs with
  | zero =>
    intro fuel hnd hne hlen hfuel
    obtain ⟨k0, rest, rfl⟩ : ∃ k0 rest, keys = k0 :: rest := by
      cases keys with
      | nil => exact absurd rfl hne
      | cons k0 rest => exact ⟨k0, rest, rfl⟩
    have h0 : qs k0 = [] :=
      List.length_eq_zero.mp (hlen k0 (List.mem_cons_self k0 rest))
    cases fuel with
    | zero => rfl
    | succ f => simp [slowestTicks, get_all_blocks_of_empty false k0 rest qs h0]
  | succ k ih =>
    intro fuel hnd hne hlen hfuel
    have hq : ∀ key ∈ keys, qs key ≠ [] := by
      intro key hkey he
      have := hlen key hkey
      rw [he] at this
      simp at this
    obtain ⟨m, qs', heq, htail⟩ := get_all_false_spec keys qs hnd hq
    cases fuel with
    | zero => exact absurd hfuel (by simp)
    | succ f =>
      have hlen' : ∀ key ∈ keys, (qs' key).length = k := by
        intro key hkey
        rw [htail key hkey, List.length_tail, hlen key hkey]
        omega
      have hticks : slowestTicks false keys qs (f + 1)
          = 1 + slowestTicks false keys qs' f := by
        simp [slowestTicks, heq]
      rw [hticks, ih qs' f hnd hne hlen' (Nat.lt_of_succ_lt_succ hfuel)]
      omega

/-- C6 witness: two distinct keys, two items backlogged on each,
`discard_old = false`: exactly two ticks. -/
theorem C6_slowest_one_item_per_key_ticks_witness :
    slowestTicks false ["a", "b"] (fun _ => ([5, 6] : List Nat)) 4 = 2 :=
  (C6_slowest_one_item_per_key_ticks (α := Nat)).2 ["a", "b"] (fun _ => [5, 6]) 2 4
    (by decide) (by decide) (by simp) (by decide)

/-- C7: every value `get_any` returns under FASTEST is a single-entry map
`{k: v}` with `k` in the key list — on the successful pass, `k` is the first
key whose queue is non-empty (keys before it were all empty) and `v` is that
queue's head; every earlier pass found all queues empty, and `sleep_time`
starts at 1 ms and doubles once per empty pass (so it is `2 ^ i` ms going
into pass `i`). -/
theorem C7_fastest_single_entry (keys : List String) (qss : Nat → String → List α)
    (fuel : Nat) (m : List (String × α)) (i s : Nat)
    (h : get_any_from keys qss 0 1 fuel = some (m, i, s)) :
    (∃ k x pre post, m = [(k, x)] ∧ keys = pre ++ k :: post
        ∧ (∀ k' ∈ pre, qss i k' = []) ∧ ∃ t, qss i k = x :: t)
    ∧ s = 2 ^ i
    ∧ ∀ j, j < i → get_any_pass keys (qss j) = Option.none := by
  obtain ⟨_, h2, h3, k, x, hm, hp⟩ := get_any_from_spec keys qss fuel 0 1 m i s h
  obtain ⟨pre, post, hkeys, hpre, ht⟩ := get_any_pass_spec keys (qss i) k x hp
  exact ⟨⟨k, x, pre, post, hm, hkeys, hpre, ht⟩,
    by simpa using h2, fun j hj => h3 j (Nat.zero_le j) hj⟩

/-- Queue-snapshot stream for the C7 witness: all queues empty on passes 0 and
1; on pass 2 the key `y` has one item. -/
def qssW : Nat → String → List Nat :=
  fun j k => if j = 2 ∧ k = "y" then [42] else []

/-- C7 witness: with keys `x, y` and the `qssW` arrival pattern the loop
succeeds on pass 2 with the single-entry map `{y: 42}` and `sleep_time` 4 ms
= 2 ^ 2. -/
theorem C7_fastest_single_entry_witness :
    (∃ k x pre post, [("y", 42)] = [(k, x)] ∧ ["x", "y"] = pre ++ k :: post
        ∧ (∀ k' ∈ pre, qssW 2 k' = []) ∧ ∃ t, qssW 2 k = x :: t)
    ∧ 4 = 2 ^ 2
    ∧ ∀ j, j < 2 → get_any_pass ["x", "y"] (qssW j) = Option.none :=
  C7_fastest_single_entry ["x", "y"] qssW 5 [("y", 42)] 2 4 (by decide)

/-- C8 counterexample: the claim says an unknown trigger raises synchronously
at construction.  The constructor stores the trigger unchecked, so
construction succeeds (returns the built layer state, raising nothing). -/
theorem C8_unknown_trigger_construction_succeeds :
    transform_init true TriggerVal.other Option.none false
      = Except.ok { keys := ["default"], trigger := TriggerVal.other,
                    triggerSource := Option.none, discardOld := false } := rfl

/-- C8 amended: constructing a transform layer with a trigger that is none of
SLOWEST, FASTEST, LAYER, TIMER succeeds; the error surfaces only at runtime,
when the first `get_input` call reaches the dispatch's final `else:
assert(False)` (layer.py line 296) and raises `AssertionError` before
gathering any data. -/
theorem C8_unknown_trigger_raises_at_first_tick (ts : Option String) (d : Bool)
    (qs : String → List α) :
    ∃ cfg, transform_init true TriggerVal.other ts d = Except.ok cfg
      ∧ transform_get_input cfg qs = GetInputOutcome.raise PyErr.assertionError :=
  ⟨_, rfl, rfl⟩

/-! ### Ports and the multi-output role (layer.py lines 30-43, 221-256)

A `Port` owns the subscriber queues created by `get_output`; `handle_output`
fans a non-`None` item out to every subscriber queue (Python `None` is
dropped, layer.py line 41).  A multi-output layer owns two name→`Port` tables
(`ports`, registered explicitly, and `auto_ports`, created lazily) plus the
inherited single default `out_port`. -/

/-- The `Port` fan-out hub (layer.py lines 30-43): a list of subscriber
queues, each a FIFO with the head at the front and arrivals appended at the
back. -/
structure Port (α : Type) where
  out_queues : List (List α)
deriving DecidableEq, Repr

/-- Embedding of `Port.handle_output` (layer.py lines 40-43): drop `None`,
otherwise append the item to every subscriber queue. -/
def Port.handle_output (p : Port α) (d : Option α) : Port α :=
  match d with
  | Option.none => p
  | some v => ⟨p.out_queues.map (fun q => q ++ [v])⟩

/-- Embedding of `Port.get_output` (layer.py lines 34-38): append a fresh
empty subscriber queue and return (the index of) it. -/
def Port.get_output (p : Port α) : Port α × Nat :=
  (⟨p.out_queues ++ [[]]⟩, p.out_queues.length)

/-- The `MultiOutputMixin` state (layer.py lines 221-225) combined with the
inherited `BaseOutputLayer` default port (lines 46-54): the declared table
`ports`, the lazily created table `auto_ports`, and the default `out_port`
(which carries whole mappings, while named ports carry sub-items). -/
structure MultiOut (α : Type) where
  ports : List (String × Port α)
  auto_ports : List (String × Port α)
  out_port : Port (List (String × α))

/-- In-place mutation of the `Port` object stored under `k` (Python mutates
the object returned by the table lookup; entries with other keys are
untouched). -/
def updateAssoc (l : List (String × Port α)) (k : String) (f : Port α → Port α) :
    List (String × Port α) :=
  l.map (fun e => if e.1 = k then (e.1, f e.2) else e)

/-- Port resolution and forwarding for one key of `MultiOutputMixin.
handle_output` (layer.py lines 246-253): `port = self.ports[key] if key in
self.ports else self.auto_ports[key]`, then `port.handle_output(sub_item)`.
The final branch mirrors the `raise NameError` of line 251; it is unreachable
because the key is always drawn from the two tables. -/
def MultiOut.forwardTo (L : MultiOut α) (key : String) (v : α) : MultiOut α :=
  if (alookup L.ports key).isSome then
    { L with ports := updateAssoc L.ports key (fun p => p.handle_output (some v)) }
  else if (alookup L.auto_ports key).isSome then
    { L with auto_ports := updateAssoc L.auto_ports key (fun p => p.handle_output (some v)) }
  else L

/-- The loop body of `MultiOutputMixin.handle_output` (layer.py lines
245-255): look the key up in the mapping; on `KeyError` (absent key) skip,
otherwise resolve the port and forward the sub-item. -/
def MultiOut.emitStep (m : List (String × α)) (acc : MultiOut α) (key : String) :
    MultiOut α :=
  match alookup m key with
  | some v => acc.forwardTo key v
  | Option.none => acc

/-- Embedding of `MultiOutputMixin.handle_output` (layer.py lines 243-256):
when the emitted value is not `None`, iterate over
`list(self.ports.keys()) + list(self.auto_ports.keys())` forwarding the
present sub-items; in any case finish with `super().handle_output(data)`,
which delivers the whole value on the default `out_port` (dropping `None`). -/
def MultiOut.handle_output (L : MultiOut α) (data : Option (List (String × α))) :
    MultiOut α :=
  let L1 :=
    match data with
    | Option.none => L
    | some m =>
      (L.ports.map Prod.fst ++ L.auto_ports.map Prod.fst).foldl (MultiOut.emitStep m) L
  { L1 with out_port := L1.out_port.handle_output data }

/-- Declared-table-first port resolution, as both `get_port` and the
`handle_output` loop perform it. -/
def MultiOut.findPort? (L : MultiOut α) (k : String) : Option (Port α) :=
  match alookup L.ports k with
  | some p => some p
  | Option.none => alookup L.auto_ports k

/-- Well-formedness maintained by `_register_port`/`get_port` in normal
operation: unique names within each table and no name in both tables
(`get_port` consults the declared table first, so it never creates an auto
port shadowing a declared one). -/
def MultiOut.Wf (L : MultiOut α) : Prop :=
  (L.ports.map Prod.fst).Nodup ∧ (L.auto_ports.map Prod.fst).Nodup
    ∧ ∀ k ∈ L.ports.map Prod.fst, k ∉ L.auto_ports.map Prod.fst

/-- Embedding of `MultiOutputMixin._register_port` (layer.py lines 237-241):
pick the table according to `auto`, raise `NameError` if the name is already a
key there, otherwise insert a fresh `Port`. -/
def MultiOut.register_port (L : MultiOut α) (port : String) (auto : Bool) :
    Except PyErr (MultiOut α) :=
  if auto then
    if (alookup L.auto_ports port).isSome then .error .nameError
    else .ok { L with auto_ports := L.auto_ports ++ [(port, ⟨[]⟩)] }
  else
    if (alookup L.ports port).isSome then .error .nameError
    else .ok { L with ports := L.ports ++ [(port, ⟨[]⟩)] }

/-- Embedding of `MultiOutputMixin.get_port` (layer.py lines 227-235): return
the declared port, else the existing auto port, else register a fresh auto
port and return it; the final `raise NameError("Port ... does not exist")`
is the fall-through. -/
def MultiOut.get_port (L : MultiOut α) (port : String) :
    Except PyErr (Port α × MultiOut α) :=
  match alookup L.ports port with
  | some p => .ok (p, L)
  | Option.none =>
    match alookup L.auto_ports port with
    | some p => .ok (p, L)
    | Option.none =>
      match L.register_port port true with
      | .error e => .error e
      | .ok L' =>
        match alookup L'.auto_ports port with
        | some p => .ok (p, L')
        | Option.none => .error .nameError

/-! ### Lemmas about association lists and the multi-output role -/

/-- A lookup misses exactly when the key is not among the stored keys. -/
lemma alookup_eq_none_iff : ∀ (l : List (String × α)) (k : String),
    alookup l k = Option.none ↔ k ∉ l.map Prod.fst := by
  intro l k
  induction l with
  | nil => simp [alookup]
  | cons e rest ih =>
    obtain ⟨k', v⟩ := e
    by_cases he : k' = k
    · subst he; simp [alookup]
    · simp only [alookup, if_neg he, List.map_cons, List.mem_cons, ih]
      constructor
      · rintro h (rfl | hmem)
        · exact he rfl
        · exact h hmem
      · intro h hmem
        exact h (Or.inr hmem)

/-- Appending a fresh binding at the back makes a previously missing key hit
it. -/
lemma alookup_append_fresh (k : String) (v : α) :
    ∀ (l : List (String × α)), alookup l k = Option.none →
      alookup (l ++ [(k, v)]) k = some v := by
  intro l
  induction l with
  | nil => simp [alookup]
  | cons e rest ih =>
    obtain ⟨k', v'⟩ := e
    intro h
    simp only [alookup] at h ⊢
    by_cases he : k' = k
    · rw [if_pos he] at h; cases h
    · rw [if_neg he] at h ⊢
      exact ih h

/-- Updating the port stored under `k` changes exactly that lookup. -/
lemma alookup_updateAssoc_self (k : String) (f : Port α → Port α) :
    ∀ (l : List (String × Port α)),
      alookup (updateAssoc l k f) k = (alookup l k).map f := by
  intro l
  induction l with
  | nil => rfl
  | cons e rest ih =>
    obtain ⟨k', p⟩ := e
    have hu : updateAssoc ((k', p) :: rest) k f
        = (if k' = k then (k', f p) else (k', p)) :: updateAssoc rest k f := by
      simp [updateAssoc]
    rw [hu]
    by_cases he : k' = k
    · rw [if_pos he]
      show (if k' = k then some (f p) else alookup (updateAssoc rest k f) k)
          = (if k' = k then some p else alookup rest k).map f
      rw [if_pos he, if_pos he]
      rfl
    · rw [if_neg he]
      show (if k' = k then some p else alookup (updateAssoc rest k f) k)
          = (if k' = k then some p else alookup rest k).map f
      rw [if_neg he, if_neg he]
      exact ih

/-- Updating the port stored under `k` leaves other lookups unchanged. -/
lemma alookup_updateAssoc_other (k k0 : String) (f : Port α → Port α) (hne : k0 ≠ k) :
    ∀ (l : List (String × Port α)),
      alookup (updateAssoc l k f) k0 = alookup l k0 := by
  intro l
  induction l with
  | nil => rfl
  | cons e rest ih =>
    obtain ⟨k', p⟩ := e
    have hu : updateAssoc ((k', p) :: rest) k f
        = (if k' = k then (k', f p) else (k', p)) :: updateAssoc rest k f := by
      simp [updateAssoc]
    rw [hu]
    by_cases he : k' = k
    · rw [if_pos he]
      have hk0 : ¬ (k' = k0) := fun h => hne (by rw [← h]; exact he)
      show (if k' = k0 then some (f p) else alookup (updateAssoc rest k f) k0)
          = (if k' = k0 then some p else alookup rest k0)
      rw [if_neg hk0, if_neg hk0]
      exact ih
    · rw [if_neg he]
      show (if k' = k0 then some p else alookup (updateAssoc rest k f) k0)
          = (if k' = k0 then some p else alookup rest k0)
      by_cases hk0 : k' = k0
      · rw [if_pos hk0, if_pos hk0]
      · rw [if_neg hk0, if_neg hk0]
        exact ih

/-- Forwarding a sub-item to key `k` applies the fan-out append to the port
resolved at `k` (whichever table holds it). -/
lemma findPort?_forwardTo_self (L : MultiOut α) (k : String) (v : α) :
    (L.forwardTo k v).findPort? k
      = (L.findPort? k).map (fun p => p.handle_output (some v)) := by
  simp only [MultiOut.forwardTo, MultiOut.findPort?]
  by_cases hp : (alookup L.ports k).isSome
  · obtain ⟨p, hp'⟩ := Option.isSome_iff_exists.mp hp
    simp [hp', alookup_updateAssoc_self]
  · have hp' : alookup L.ports k = Option.none := Option.not_isSome_iff_eq_none.mp hp
    by_cases ha : (alookup L.auto_ports k).isSome
    · obtain ⟨p, ha'⟩ := Option.isSome_iff_exists.mp ha
      simp [hp', ha', alookup_updateAssoc_self]
    · have ha' : alookup L.auto_ports k = Option.none := Option.not_isSome_iff_eq_none.mp ha
      simp [hp', ha']

/-- Forwarding to key `k` does not disturb the port resolved at another
key. -/
lemma findPort?_forwardTo_other (L : MultiOut α) (k k0 : String) (v : α) (hne : k0 ≠ k) :
    (L.forwardTo k v).findPort? k0 = L.findPort? k0 := by
  simp only [MultiOut.forwardTo, MultiOut.findPort?]
  by_cases hp : (alookup L.ports k).isSome
  · simp only [hp, if_true]
    rw [alookup_updateAssoc_other k k0 _ hne]
  · simp only [hp, Bool.false_eq_true, if_false]
    by_cases ha : (alookup L.auto_ports k).isSome
    · simp only [ha, if_true]
      rw [alookup_updateAssoc_other k k0 _ hne]
    · simp only [ha, Bool.false_eq_true, if_false]

/-- One emission-loop step for a key other than `k` leaves `k`'s port
alone. -/
lemma findPort?_emitStep_other (m : List (String × α)) (acc : MultiOut α)
    (key k0 : String) (hne : k0 ≠ key) :
    (MultiOut.emitStep m acc key).findPort? k0 = acc.findPort? k0 := by
  simp only [MultiOut.emitStep]
  cases hv : alookup m key with
  | some v => exact findPort?_forwardTo_other acc key k0 v hne
  | none => rfl

/-- The emission loop over keys not containing `k` leaves `k`'s port
alone. -/
lemma findPort?_foldl_not_mem (m : List (String × α)) (k0 : String) :
    ∀ (ks : List String) (L : MultiOut α), k0 ∉ ks →
      (ks.foldl (MultiOut.emitStep m) L).findPort? k0 = L.findPort? k0 := by
  intro ks
  induction ks with
  | nil => intro L _; rfl
  | cons key rest ih =>
    intro L h
    have h1 : k0 ≠ key := fun he => h (he ▸ List.mem_cons_self key rest)
    have h2 : k0 ∉ rest := fun hmem => h (List.mem_cons_of_mem _ hmem)
    show (rest.foldl (MultiOut.emitStep m) (MultiOut.emitStep m L key)).findPort? k0
        = L.findPort? k0
    rw [ih _ h2, findPort?_emitStep_other m L key k0 h1]

/-- The emission loop never touches the default output port. -/
lemma out_port_foldl (m : List (String × α)) :
    ∀ (ks : List String) (L : MultiOut α),
      (ks.foldl (MultiOut.emitStep m) L).out_port = L.out_port := by
  intro ks
  induction ks with
  | nil => intro L; rfl
  | cons key rest ih =>
    intro L
    show (rest.foldl (MultiOut.emitStep m) (MultiOut.emitStep m L key)).out_port = L.out_port
    rw [ih]
    simp only [MultiOut.emitStep]
    cases alookup m key with
    | some v =>
      simp only [MultiOut.forwardTo]
      split
      · rfl
      · split <;> rfl
    | none => rfl

/-- A hit in the resolution means the key names a port of one of the two
tables. -/
lemma findPort?_mem_union (L : MultiOut α) (k : String) (p : Port α)
    (h : L.findPort? k = some p) :
    k ∈ L.ports.map Prod.fst ++ L.auto_ports.map Prod.fst := by
  simp only [MultiOut.findPort?] at h
  cases hp : alookup L.ports k with
  | some q =>
    refine List.mem_append_left _ ?_
    have := (alookup_eq_none_iff L.ports k).mpr
    by_contra hmem
    rw [this hmem] at hp
    cases hp
  | none =>
    rw [hp] at h
    refine List.mem_append_right _ ?_
    by_contra hmem
    rw [(alookup_eq_none_iff L.auto_ports k).mpr hmem] at h
    cases h

/-! ### Claim theorems for the multi-output role -/

/-- C9: emitting a non-`None` mapping from a multi-output layer forwards, for
every known port name (declared table first, then auto table), the sub-item
`mapping[name]` to that port's fan-out when the name is a key of the mapping,
and leaves the port untouched when it is absent; in the same call the whole
mapping is additionally appended to every subscriber queue of the layer's
default output port, so both paths deliver on the same tick.  Ports are
resolved under the well-formedness the registration code maintains (unique
names per table, no name in both tables). -/
theorem C9_multi_output_emit (L : MultiOut α) (m : List (String × α)) (hWf : L.Wf) :
    ((L.handle_output (some m)).out_port.out_queues
        = L.out_port.out_queues.map (fun q => q ++ [m]))
    ∧ (∀ k p, L.findPort? k = some p →
        (L.handle_output (some m)).findPort? k
          = some (match alookup m k with
                  | some v => p.handle_output (some v)
                  | Option.none => p))
    ∧ ∀ k, L.findPort? k = Option.none →
        (L.handle_output (some m)).findPort? k = Option.none := by
  obtain ⟨hnd, hna, hdisj⟩ := hWf
  have hout : (L.handle_output (some m)).out_port
      = ((L.ports.map Prod.fst ++ L.auto_ports.map Prod.fst).foldl
          (MultiOut.emitStep m) L).out_port.handle_output (some m) := rfl
  have hsame : ∀ k0, (L.handle_output (some m)).findPort? k0
      = ((L.ports.map Prod.fst ++ L.auto_ports.map Prod.fst).foldl
          (MultiOut.emitStep m) L).findPort? k0 := fun _ => rfl
  refine ⟨?_, ?_, ?_⟩
  · rw [hout, out_port_foldl m _ L]
    rfl
  · intro k p hfind
    have hmem : k ∈ L.ports.map Prod.fst ++ L.auto_ports.map Prod.fst :=
      findPort?_mem_union L k p hfind
    have hnodup : (L.ports.map Prod.fst ++ L.auto_ports.map Prod.fst).Nodup :=
      List.nodup_append.mpr ⟨hnd, hna, fun a ha hb => hdisj a ha hb⟩
    obtain ⟨pre, post, hkeys⟩ := List.append_of_mem hmem
    rw [hkeys] at hnodup
    obtain ⟨hpre_nd, hcons_nd, hdisj2⟩ := List.nodup_append.mp hnodup
    have hkpost : k ∉ post := (List.nodup_cons.mp hcons_nd).1
    have hkpre : k ∉ pre := fun hk => hdisj2 hk (List.mem_cons_self k post)
    rw [hsame k, hkeys, List.foldl_append, List.foldl_cons,
      findPort?_foldl_not_mem m k post _ hkpost]
    have hacc : (pre.foldl (MultiOut.emitStep m) L).findPort? k = some p := by
      rw [findPort?_foldl_not_mem m k pre L hkpre]
      exact hfind
    cases hv : alookup m k with
    | some v =>
      have hstep : MultiOut.emitStep m (pre.foldl (MultiOut.emitStep m) L) k
          = (pre.foldl (MultiOut.emitStep m) L).forwardTo k v := by
        simp [MultiOut.emitStep, hv]
      rw [hstep, findPort?_forwardTo_self, hacc]
      rfl
    | none =>
      have hstep : MultiOut.emitStep m (pre.foldl (MultiOut.emitStep m) L) k
          = pre.foldl (MultiOut.emitStep m) L := by
        simp [MultiOut.emitStep, hv]
      rw [hstep, hacc]
  · intro k hfind
    have hp : alookup L.ports k = Option.none := by
      cases h : alookup L.ports k with
      | none => rfl
      | some q => simp [MultiOut.findPort?, h] at hfind
    have ha : alookup L.auto_ports k = Option.none := by
      cases h : alookup L.auto_ports k with
      | none => rfl
      | some q => simp [MultiOut.findPort?, hp, h] at hfind
    have hmem : k ∉ L.ports.map Prod.fst ++ L.auto_ports.map Prod.fst := by
      intro hk
      rcases List.mem_append.mp hk with hk | hk
      · exact (alookup_eq_none_iff L.ports k).mp hp hk
      · exact (alookup_eq_none_iff L.auto_ports k).mp ha hk
    rw [hsame k, findPort?_foldl_not_mem m k _ L hmem]
    exact hfind

/-- Concrete multi-output layer for the C9 witness: one declared port `a`
with one subscriber, one auto port `b` with one subscriber, one default-port
subscriber. -/
def mOutW : MultiOut Nat :=
  { ports := [("a", ⟨[[]]⟩)], auto_ports := [("b", ⟨[[]]⟩)], out_port := ⟨[[]]⟩ }

/-- The mapping emitted in the C9 witness: carries a sub-item for `a` only. -/
def mW : List (String × Nat) := [("a", 5)]

/-- C9 witness: the witness layer is well-formed and emitting `{a: 5}`
appends the whole mapping to the default port's subscriber queue. -/
theorem C9_multi_output_emit_witness :
    MultiOut.Wf mOutW
    ∧ (mOutW.handle_output (some mW)).out_port.out_queues
        = mOutW.out_port.out_queues.map (fun q => q ++ [mW]) :=
  have hwf : MultiOut.Wf mOutW := ⟨by decide, by decide, by decide⟩
  ⟨hwf, (C9_multi_output_emit mOutW mW hwf).1⟩

/-- C10: `get_port` never raises — for every state of the two port tables and
every requested name it returns the declared port when one exists (state
unchanged), else the existing auto port (state unchanged), else it registers
a fresh auto port under that name and returns it; in particular the trailing
`raise NameError("Port ... does not exist")` branch is unreachable and every
call returns a port. -/
theorem C10_get_port_never_raises (L : MultiOut α) (k : String) :
    (∀ p, alookup L.ports k = some p → L.get_port k = Except.ok (p, L))
    ∧ (∀ p, alookup L.ports k = Option.none → alookup L.auto_ports k = some p →
        L.get_port k = Except.ok (p, L))
    ∧ (alookup L.ports k = Option.none → alookup L.auto_ports k = Option.none →
        L.get_port k = Except.ok ((⟨[]⟩ : Port α),
          { L with auto_ports := L.auto_ports ++ [(k, (⟨[]⟩ : Port α))] }))
    ∧ ∃ p L', L.get_port k = Except.ok (p, L') := by
  have b1 : ∀ p, alookup L.ports k = some p → L.get_port k = Except.ok (p, L) := by
    intro p hp
    simp [MultiOut.get_port, hp]
  have b2 : ∀ p, alookup L.ports k = Option.none → alookup L.auto_ports k = some p →
      L.get_port k = Except.ok (p, L) := by
    intro p hp ha
    simp [MultiOut.get_port, hp, ha]
  have b3 : alookup L.ports k = Option.none → alookup L.auto_ports k = Option.none →
      L.get_port k = Except.ok ((⟨[]⟩ : Port α),
        { L with auto_ports := L.auto_ports ++ [(k, (⟨[]⟩ : Port α))] }) := by
    intro hp ha
    simp [MultiOut.get_port, hp, ha, MultiOut.register_port,
      alookup_append_fresh k (⟨[]⟩ : Port α) L.auto_ports ha]
  refine ⟨b1, b2, b3, ?_⟩
  cases hp : alookup L.ports k with
  | some p => exact ⟨p, L, b1 p hp⟩
  | none =>
    cases ha : alookup L.auto_ports k with
    | some p => exact ⟨p, L, b2 p hp ha⟩
    | none => exact ⟨⟨[]⟩, _, b3 hp ha⟩

/-- C10 witness: requesting the unknown name `x` on a layer with empty tables
returns a freshly created auto port instead of raising. -/
theorem C10_get_port_never_raises_witness :
    MultiOut.get_port { ports := [], auto_ports := [], out_port := ⟨[]⟩ } "x"
      = Except.ok ((⟨[]⟩ : Port Nat),
          { ports := [], auto_ports := [("x", (⟨[]⟩ : Port Nat))], out_port := ⟨[]⟩ }) :=
  (C10_get_port_never_raises
    { ports := [], auto_ports := [], out_port := ⟨[]⟩ } "x").2.2.1 rfl rfl

end PyRealtime
